import Mathlib

set_option maxRecDepth 200000

/-!
Verification of the `pykvstores` PyArrow-Plasma key-value store backend
(`pykvstores/pyarrow_plasma_kvstore.py`).

The development shallowly embeds the backend:
* `blake2b` implements the BLAKE2b hash (RFC 7693, keyless, sequential) that
  `hashlib.blake2b` provides; `gen_hash` embeds
  `PyArrowPlasmaKVStore.gen_hash`, canonicalizing text keys by UTF-8
  encoding, byte keys as themselves, and integer keys via their decimal
  string, exactly as `key.encode()` / `key` / `str(key).encode()` do.
* `KVState` models one store instance (the `__created` / `_connected` flags,
  the backing `plasma_store` process and socket) together with the contents
  of the backing plasma store; the plasma client calls (`put`, `get`,
  `delete`, `contains`, `list`, `store_capacity`) are modelled on that
  state.  Serialization size of an object is an external deterministic
  function and is passed as the parameter `psz`; the outcome of the external
  `plasma.connect` / `client.disconnect` calls is passed as an explicit
  boolean.
* Each public method of `PyArrowPlasmaKVStore` is embedded as a function on
  `KVState`; a raised Python exception is an explicit `PyErr` value, and a
  mutating method returns the (possibly mutated) state alongside it.
-/

namespace PlasmaKV

/-! ### BLAKE2b (RFC 7693), as provided by `hashlib.blake2b` -/

/-- Modulus for 64-bit words. -/
def U64 : Nat := 18446744073709551616

/-- Initialization vector of BLAKE2b. -/
def blakeIV : List Nat :=
  [0x6a09e667f3bcc908, 0xbb67ae8584caa73b, 0x3c6ef372fe94f82b, 0xa54ff53a5f1d36f1,
   0x510e527fade682d1, 0x9b05688c2b3e6c1f, 0x1f83d9abfb41bd6b, 0x5be0cd19137e2179]

/-- Message schedule permutations of BLAKE2b. -/
def blakeSigma : List (List Nat) :=
  [[0, 1, 2, 3, 4, 5, 6, 7, 8, 9, 10, 11, 12, 13, 14, 15],
   [14, 10, 4, 8, 9, 15, 13, 6, 1, 12, 0, 2, 11, 7, 5, 3],
   [11, 8, 12, 0, 5, 2, 15, 13, 10, 14, 3, 6, 7, 1, 9, 4],
   [7, 9, 3, 1, 13, 12, 11, 14, 2, 6, 5, 10, 4, 0, 15, 8],
   [9, 0, 5, 7, 2, 4, 10, 15, 14, 1, 11, 12, 6, 8, 3, 13],
   [2, 12, 6, 10, 0, 11, 8, 3, 4, 13, 7, 5, 15, 14, 1, 9],
   [12, 5, 1, 15, 14, 13, 4, 10, 0, 7, 6, 3, 9, 2, 8, 11],
   [13, 11, 7, 14, 12, 1, 3, 9, 5, 0, 15, 4, 8, 6, 2, 10],
   [6, 15, 14, 9, 11, 3, 0, 8, 12, 2, 13, 7, 1, 4, 10, 5],
   [10, 2, 8, 4, 7, 6, 1, 5, 15, 11, 9, 14, 3, 12, 13, 0]]

/-- Right rotation of a 64-bit word. -/
def rotr64 (x n : Nat) : Nat :=
  (x >>> n) ||| ((x <<< (64 - n)) % U64)

/-- Mixing function G of BLAKE2b on the 16-word work vector. -/
def gmix (v : List Nat) (a b c d x y : Nat) : List Nat :=
  let va := (v.getD a 0 + v.getD b 0 + x) % U64
  let vd := rotr64 ((v.getD d 0) ^^^ va) 32
  let vc := (v.getD c 0 + vd) % U64
  let vb := rotr64 ((v.getD b 0) ^^^ vc) 24
  let va2 := (va + vb + y) % U64
  let vd2 := rotr64 (vd ^^^ va2) 16
  let vc2 := (vc + vd2) % U64
  let vb2 := rotr64 (vb ^^^ vc2) 63
  (((v.set a va2).set b vb2).set c vc2).set d vd2

/-- One round of the BLAKE2b compression function. -/
def blakeRound (m v s : List Nat) : List Nat :=
  let v1 := gmix v 0 4 8 12 (m.getD (s.getD 0 0) 0) (m.getD (s.getD 1 0) 0)
  let v2 := gmix v1 1 5 9 13 (m.getD (s.getD 2 0) 0) (m.getD (s.getD 3 0) 0)
  let v3 := gmix v2 2 6 10 14 (m.getD (s.getD 4 0) 0) (m.getD (s.getD 5 0) 0)
  let v4 := gmix v3 3 7 11 15 (m.getD (s.getD 6 0) 0) (m.getD (s.getD 7 0) 0)
  let v5 := gmix v4 0 5 10 15 (m.getD (s.getD 8 0) 0) (m.getD (s.getD 9 0) 0)
  let v6 := gmix v5 1 6 11 12 (m.getD (s.getD 10 0) 0) (m.getD (s.getD 11 0) 0)
  let v7 := gmix v6 2 7 8 13 (m.getD (s.getD 12 0) 0) (m.getD (s.getD 13 0) 0)
  gmix v7 3 4 9 14 (m.getD (s.getD 14 0) 0) (m.getD (s.getD 15 0) 0)

/-- Compression function F of BLAKE2b: `h` is the 8-word state, `m` the
16-word message block, `t` the byte offset counter, `last` the final-block
flag. -/
def blakeCompress (h m : List Nat) (t : Nat) (last : Bool) : List Nat :=
  let v0 := h ++ blakeIV
  let v1 := v0.set 12 ((v0.getD 12 0) ^^^ (t % U64))
  let v2 := v1.set 13 ((v1.getD 13 0) ^^^ (t / U64))
  let v3 := if last then v2.set 14 ((v2.getD 14 0) ^^^ (U64 - 1)) else v2
  let vf := (List.range 12).foldl (fun v i => blakeRound m v (blakeSigma.getD (i % 10) [])) v3
  (List.range 8).map (fun i => (h.getD i 0) ^^^ (vf.getD i 0) ^^^ (vf.getD (i + 8) 0))

/-- Little-endian interpretation of a byte list as a word. -/
def bytesToWordLE (bs : List Nat) : Nat :=
  bs.foldr (fun b acc => b + 256 * acc) 0

/-- Little-endian serialization of a 64-bit word into 8 bytes. -/
def wordToBytesLE (w : Nat) : List Nat :=
  [w % 256, w / 256 % 256, w / 256 ^ 2 % 256, w / 256 ^ 3 % 256,
   w / 256 ^ 4 % 256, w / 256 ^ 5 % 256, w / 256 ^ 6 % 256, w / 256 ^ 7 % 256]

/-- Split a 128-byte block into its 16 little-endian words. -/
def blockWords (block : List Nat) : List Nat :=
  (List.range 16).map (fun i => bytesToWordLE ((block.drop (8 * i)).take 8))

/-- Zero-pad a final partial block to 128 bytes and split it into words. -/
def padBlockWords (msg : List Nat) : List Nat :=
  blockWords (msg ++ List.replicate (128 - msg.length) 0)

/-- Process the message blocks of BLAKE2b.  `fuel` only bounds the
recursion; `msg.length + 1` is always enough since each step consumes 128
bytes. -/
def blake2bLoop (fuel : Nat) (h : List Nat) (msg : List Nat) (t : Nat) : List Nat :=
  match fuel with
  | 0 => h
  | fuel + 1 =>
    if msg.length ≤ 128 then
      blakeCompress h (padBlockWords msg) (t + msg.length) true
    else
      blake2bLoop fuel (blakeCompress h (blockWords (msg.take 128)) (t + 128) false)
        (msg.drop 128) (t + 128)

/-- Keyless sequential BLAKE2b of a byte string with digest size `nn`,
as computed by `hashlib.blake2b(msg, digest_size=nn)`. -/
def blake2b (nn : Nat) (msg : List Nat) : List Nat :=
  let h0 := blakeIV.set 0 ((blakeIV.getD 0 0) ^^^ (0x01010000 ^^^ nn))
  let h := blake2bLoop (msg.length + 1) h0 msg 0
  (h.flatMap wordToBytesLE).take nn

end PlasmaKV

namespace PlasmaKV

/-! ### Key canonicalization

`gen_hash` feeds `key.encode()` (UTF-8) for `str` keys, the raw bytes for
`bytes` keys, and `str(key).encode()` (the decimal representation) for `int`
keys into `blake2b`. -/

/-- UTF-8 encoding of a single Unicode codepoint, as `str.encode()` emits it. -/
def utf8EncodeCp (c : Nat) : List Nat :=
  if c < 0x80 then [c]
  else if c < 0x800 then [0xC0 + c / 64, 0x80 + c % 64]
  else if c < 0x10000 then [0xE0 + c / 4096, 0x80 + c / 64 % 64, 0x80 + c % 64]
  else [0xF0 + c / 0x40000, 0x80 + c / 4096 % 64, 0x80 + c / 64 % 64, 0x80 + c % 64]

/-- UTF-8 encoding of a list of codepoints. -/
def utf8EncodeCps : List Nat → List Nat
  | [] => []
  | c :: cs => utf8EncodeCp c ++ utf8EncodeCps cs

/-- UTF-8 byte encoding of a string (what Python's `key.encode()` returns). -/
def strEncode (s : String) : List Nat :=
  utf8EncodeCps (s.data.map Char.toNat)

/-- Little-endian decimal digits of `n`, empty for `n = 0`; `fuel` only
bounds the recursion and `fuel ≥ n` is always enough. -/
def natDigitsRev (fuel n : Nat) : List Nat :=
  match fuel with
  | 0 => []
  | fuel + 1 => if n = 0 then [] else n % 10 :: natDigitsRev fuel (n / 10)

/-- ASCII bytes of the decimal representation of a natural number,
matching Python's `str(n)` for `n ≥ 0`. -/
def natDecimal (n : Nat) : List Nat :=
  if n = 0 then [48] else ((natDigitsRev n n).reverse.map (fun d => d + 48))

/-- ASCII bytes of `str(i)` for a Python integer: a leading `'-'` (byte 45)
for negative values, then the decimal digits of the absolute value. -/
def intDecimal (i : Int) : List Nat :=
  if i < 0 then 45 :: natDecimal i.natAbs else natDecimal i.natAbs

/-- Model of a Python value handed to the key-hashing code: the three
supported key types `str`, `bytes`, `int`, or a value of any other type
(`other` carries the type's name, e.g. "float"). -/
inductive PKey where
  | str (s : String)
  | bytes (b : List Nat)
  | int (i : Int)
  | other (typeName : String)
  deriving DecidableEq, Repr

/-- Canonical byte string that `gen_hash` digests for a supported key:
UTF-8 of a `str`, the raw `bytes`, the decimal string of an `int`; `none`
for an unsupported key type. -/
def canonicalBytes : PKey → Option (List Nat)
  | .str s => some (strEncode s)
  | .bytes b => some b
  | .int i => some (intDecimal i)
  | .other _ => none

/-- Python exceptions raised (or propagated) by the store's methods. -/
inductive PyErr where
  | typeError
  | valueError
  | runtimeError
  | connectionError
  | unboundLocalError
  | plasmaObjectExists
  deriving DecidableEq, Repr

/-- Embedding of `PyArrowPlasmaKVStore.gen_hash(key, digest_size)`: the
`isinstance` chain digests `str`, `bytes` and `int` keys with BLAKE2b; for
any other type no branch assigns `hash_value`, so the final
`hash_value.digest()` raises `UnboundLocalError`. -/
def gen_hash (key : PKey) (digest_size : Nat := 20) : Except PyErr (List Nat) :=
  match canonicalBytes key with
  | some bs => .ok (blake2b digest_size bs)
  | none => .error .unboundLocalError

/-- True when the two keys are of the same supported type (both `str`, both
`bytes`, or both `int`). -/
def sameKind : PKey → PKey → Bool
  | .str _, .str _ => true
  | .bytes _, .bytes _ => true
  | .int _, .int _ => true
  | _, _ => false

end PlasmaKV

namespace PlasmaKV

/-! ### Model of the plasma object store and of one `PyArrowPlasmaKVStore`
instance

The backing `plasma_store` process holds immutable objects addressed by a
20-byte ObjectID.  `client.put([key, value], object_id)` stores the pair
`[key, value]`; the store records a data size and a metadata size for each
object (their values come from serialization, external to this code, so the
model takes the size function `psz` as a parameter). -/

/-- One object held by the backing plasma store: its ObjectID (the 20-byte
digest), the stored `[key, value]` pair, and its sizes as reported by
`client.list()`. -/
structure PEntry (V : Type) where
  oid : List Nat
  key : PKey
  val : V
  dataSize : Nat
  metaSize : Nat
  deriving DecidableEq, Repr

/-- Contents of the backing plasma store: its capacity in bytes (the `-m`
argument the process was started with) and the objects it currently holds. -/
structure PStore (V : Type) where
  capacity : Nat
  entries : List (PEntry V)
  deriving DecidableEq, Repr

/-- First entry with the given ObjectID, if any. -/
def findEntry {V : Type} (oid : List Nat) : List (PEntry V) → Option (PEntry V)
  | [] => none
  | e :: es => if e.oid = oid then some e else findEntry oid es

/-- Total memory used by the stored objects: the sum of `data_size +
metadata_size` over `client.list()`, as `get_used_memory` computes it. -/
def usedMem {V : Type} (s : PStore V) : Nat :=
  (s.entries.map (fun e => e.dataSize + e.metaSize)).sum

/-- Entries that remain after `client.delete(oids)`: objects whose ID is in
`oids` are removed, IDs with no object are silently ignored. -/
def removeOids {V : Type} (oids : List (List Nat)) : List (PEntry V) → List (PEntry V)
  | [] => []
  | e :: es => if e.oid ∈ oids then removeOids oids es else e :: removeOids oids es

/-- Outcome of `client.put`: the `PlasmaObjectExists` exception, the
`PlasmaStoreFull` exception, or success with the new store contents. -/
inductive PutRes (V : Type) where
  | objectExists
  | storeFull
  | ok (s : PStore V)
  deriving Repr

/-- Model of `client.put([key, value], oid)` where `psz` gives the
serialized data/metadata sizes of the object: raises `PlasmaObjectExists`
if `oid` is already present, `PlasmaStoreFull` if the object does not fit
in the remaining capacity, and otherwise stores it. -/
def plasmaPut {V : Type} (psz : PKey → V → Nat × Nat) (oid : List Nat) (k : PKey) (v : V)
    (s : PStore V) : PutRes V :=
  if (findEntry oid s.entries).isSome then .objectExists
  else if s.capacity < usedMem s + (psz k v).1 + (psz k v).2 then .storeFull
  else .ok { s with entries := s.entries ++ [⟨oid, k, v, (psz k v).1, (psz k v).2⟩] }

/-- Model of `client.delete(oids)`. -/
def plasmaDelete {V : Type} (oids : List (List Nat)) (s : PStore V) : PStore V :=
  { s with entries := removeOids oids s.entries }

/-- State of one `PyArrowPlasmaKVStore` instance together with the world it
owns: the private `__created` flag, the `_connected` flag, whether the
spawned `plasma_store` process is running (`plasma_store_proc`), whether the
socket file exists, and the contents of the backing store. -/
structure KVState (V : Type) where
  created : Bool
  connected : Bool
  procAlive : Bool
  socketExists : Bool
  store : PStore V
  deriving Repr

/-- Argument passed to `delete` / `__delitem__`: Python distinguishes a
single (scalar) key from a list of keys by `isinstance(keys, list)`. -/
inductive PyArg where
  | scalar (k : PKey)
  | listArg (ks : List PKey)
  deriving DecidableEq, Repr

/-- Result value of a capacity query: `get_*_memory`/`get_store_capacity`
return the byte count directly, or the string `format_size` renders from it
when `human_readable` is set (the formatting itself is presentation-level
and kept abstract as the tag `human`). -/
inductive CapResult where
  | raw (n : Int)
  | human (n : Int)
  deriving DecidableEq, Repr

end PlasmaKV

namespace PlasmaKV

variable {V : Type}

/-! ### The methods of `PyArrowPlasmaKVStore`

Every method decorated with `@check_connected` first runs the guard: if
`self._connected` is falsy it raises `ConnectionError` and the body never
runs. -/

/-- Embedding of `gen_object_id`: the 20-byte BLAKE2b digest of the key is
the ObjectID (`plasma.ObjectID(self.gen_hash(key))`). -/
def gen_object_id (key : PKey) : Except PyErr (List Nat) :=
  gen_hash key 20

/-- Embedding of `__setitem__` (`put`): guard, hash the key, then
`client.put([key, value], object_id)`; `PlasmaObjectExists` is swallowed
(first-writer-wins) and `PlasmaStoreFull` is re-raised as `ValueError`. -/
def setitem (psz : PKey → V → Nat × Nat) (k : PKey) (v : V) (σ : KVState V) :
    Option PyErr × KVState V :=
  if !σ.connected then (some .connectionError, σ)
  else
    match gen_object_id k with
    | .error e => (some e, σ)
    | .ok oid =>
      match plasmaPut psz oid k v σ.store with
      | .objectExists => (none, σ)
      | .storeFull => (some .valueError, σ)
      | .ok s' => (none, { σ with store := s' })

/-- Embedding of `__getitem__` (`get`): guard, hash the key, then
`client.get(object_id)[1]`, with `PlasmaObjectNotFound` caught and turned
into `None`. -/
def getitem (k : PKey) (σ : KVState V) : Except PyErr (Option V) :=
  if !σ.connected then .error .connectionError
  else
    match gen_object_id k with
    | .error e => .error e
    | .ok oid =>
      match findEntry oid σ.store.entries with
      | some e => .ok (some e.val)
      | none => .ok none

/-- Embedding of `__delitem__`: guard; a non-list argument raises
`TypeError("keys must be a list")` before anything is deleted; for a list,
all ObjectIDs are computed first and then `client.delete(object_ids)` runs. -/
def delitem (arg : PyArg) (σ : KVState V) : Option PyErr × KVState V :=
  if !σ.connected then (some .connectionError, σ)
  else
    match arg with
    | .scalar _ => (some .typeError, σ)
    | .listArg ks =>
      match ks.mapM gen_object_id with
      | .error e => (some e, σ)
      | .ok oids => (none, { σ with store := plasmaDelete oids σ.store })

/-- Embedding of the public `delete`: a list argument is passed to
`__delitem__` as is, a scalar argument is wrapped into a one-element list
(`self.__delitem__([keys])`). -/
def delete (arg : PyArg) (σ : KVState V) : Option PyErr × KVState V :=
  match arg with
  | .listArg ks => delitem (.listArg ks) σ
  | .scalar k => delitem (.listArg [k]) σ

/-- Embedding of `__contains__`: guard, hash, `client.contains(object_id)`. -/
def containsOp (k : PKey) (σ : KVState V) : Except PyErr Bool :=
  if !σ.connected then .error .connectionError
  else
    match gen_object_id k with
    | .error e => .error e
    | .ok oid => .ok (findEntry oid σ.store.entries).isSome

/-- Embedding of `__len__`: guard, `len(client.list())`. -/
def lenOp (σ : KVState V) : Except PyErr Nat :=
  if !σ.connected then .error .connectionError
  else .ok σ.store.entries.length

/-- Embedding of `__iter__`: guard, snapshot `client.list()` and resolve all
`(key, value)` pairs via `client.get`. -/
def iterOp (σ : KVState V) : Except PyErr (List (PKey × V)) :=
  if !σ.connected then .error .connectionError
  else .ok (σ.store.entries.map (fun e => (e.key, e.val)))

/-- Embedding of `keys()`: guard, then the key of every listed object. -/
def keysOp (σ : KVState V) : Except PyErr (List PKey) :=
  if !σ.connected then .error .connectionError
  else .ok (σ.store.entries.map (fun e => e.key))

/-- Embedding of `values()`: guard, then the value of every listed object. -/
def valuesOp (σ : KVState V) : Except PyErr (List V) :=
  if !σ.connected then .error .connectionError
  else .ok (σ.store.entries.map (fun e => e.val))

/-- Embedding of `replace`: guard, hash, then `client.delete([object_id])`
followed by `client.put([key, value], object_id)`; only `PlasmaStoreFull`
is caught (re-raised as `ValueError`) — and by then the delete has already
happened. -/
def replace (psz : PKey → V → Nat × Nat) (k : PKey) (v : V) (σ : KVState V) :
    Option PyErr × KVState V :=
  if !σ.connected then (some .connectionError, σ)
  else
    match gen_object_id k with
    | .error e => (some e, σ)
    | .ok oid =>
      let s1 := plasmaDelete [oid] σ.store
      match plasmaPut psz oid k v s1 with
      | .objectExists => (some .plasmaObjectExists, { σ with store := s1 })
      | .storeFull => (some .valueError, { σ with store := s1 })
      | .ok s2 => (none, { σ with store := s2 })

end PlasmaKV

namespace PlasmaKV

variable {V : Type}

/-- Python-dict insertion for the `local_dict[key] = value` statement:
an existing binding of the key is overwritten in place, a new key is
appended. -/
def dictInsert [DecidableEq κ] (d : List (κ × α)) (k : κ) (v : α) : List (κ × α) :=
  if d.any (fun p => p.1 = k) then
    d.map (fun p => if p.1 = k then (k, v) else p)
  else d ++ [(k, v)]

/-- Loop body of `get_multi`: `local_dict[key] = self[key]` for each key in
order; an exception from `__getitem__` propagates and discards the local
dict. -/
def get_multi_loop (σ : KVState V) : List PKey → List (PKey × Option V) →
    Except PyErr (List (PKey × Option V))
  | [], d => .ok d
  | k :: ks, d =>
    match getitem k σ with
    | .error e => .error e
    | .ok v => get_multi_loop σ ks (dictInsert d k v)

/-- Embedding of `get_multi(keys)`: builds a dict mapping each requested key
to `self[key]` (which is `None` when the key is absent).  Note the method
itself is not decorated: the guard fires inside the first `__getitem__`
call. -/
def get_multi (ks : List PKey) (σ : KVState V) : Except PyErr (List (PKey × Option V)) :=
  get_multi_loop σ ks []

/-- Loop body of `set_multi`: `self[key] = value` over `zip(keys, values)`;
the first exception propagates, keeping the writes made so far. -/
def set_multi_loop (psz : PKey → V → Nat × Nat) :
    List PKey → List V → KVState V → Option PyErr × KVState V
  | [], _, σ => (none, σ)
  | _ :: _, [], σ => (none, σ)
  | k :: ks, v :: vs, σ =>
    match setitem psz k v σ with
    | (some e, σ') => (some e, σ')
    | (none, σ') => set_multi_loop psz ks vs σ'

/-- Embedding of `set_multi(keys, values)`: raises
`ValueError("Keys and values should be of same length")` when the lengths
differ (before any write, and before any connection guard — the method is
not decorated), else puts each pair in order. -/
def set_multi (psz : PKey → V → Nat × Nat) (ks : List PKey) (vs : List V)
    (σ : KVState V) : Option PyErr × KVState V :=
  if ks.length ≠ vs.length then (some .valueError, σ)
  else set_multi_loop psz ks vs σ

/-- Sequential single-key `put` over a list of pairs: the reference against
which `set_multi`'s loop is compared ("applies `put` semantics per pair"). -/
def putPairs (psz : PKey → V → Nat × Nat) :
    List (PKey × V) → KVState V → Option PyErr × KVState V
  | [], σ => (none, σ)
  | (k, v) :: kvs, σ =>
    match setitem psz k v σ with
    | (some e, σ') => (some e, σ')
    | (none, σ') => putPairs psz kvs σ'

/-- Embedding of `get_object_ids`: guard, then `list(client.list().keys())`. -/
def get_object_ids (σ : KVState V) : Except PyErr (List (List Nat)) :=
  if !σ.connected then .error .connectionError
  else .ok (σ.store.entries.map (fun e => e.oid))

/-- Embedding of `get_store_capacity`: guard, then the configured capacity,
formatted when `human_readable` is set. -/
def get_store_capacity (hr : Bool) (σ : KVState V) : Except PyErr CapResult :=
  if !σ.connected then .error .connectionError
  else .ok (if hr then .human σ.store.capacity else .raw σ.store.capacity)

/-- Embedding of `get_used_memory`: guard, then the sum of
`data_size + metadata_size` of every listed object. -/
def get_used_memory (hr : Bool) (σ : KVState V) : Except PyErr CapResult :=
  if !σ.connected then .error .connectionError
  else .ok (if hr then .human (usedMem σ.store) else .raw (usedMem σ.store))

/-- Embedding of `get_available_memory`: guard, then
`capacity - used` (computed with `get_used_memory(human_readable=False)`). -/
def get_available_memory (hr : Bool) (σ : KVState V) : Except PyErr CapResult :=
  if !σ.connected then .error .connectionError
  else
    let avail : Int := (σ.store.capacity : Int) - (usedMem σ.store : Int)
    .ok (if hr then .human avail else .raw avail)

/-! ### Lifecycle methods -/

/-- Embedding of `create_plasma_store` (and the background spawn it calls):
raises `RuntimeError` on a second create; otherwise removes a stale socket,
spawns `plasma_store` and, after the grace period, polls it — `startOk`
says whether the process is still alive (a dead process raises
`RuntimeError` and `__created` stays false). -/
def create_plasma_store (startOk : Bool) (σ : KVState V) : Option PyErr × KVState V :=
  if σ.created then (some .runtimeError, σ)
  else if startOk then
    (none, { σ with created := true, procAlive := true, socketExists := true })
  else
    (some .runtimeError, { σ with procAlive := false, socketExists := false })

/-- Embedding of `cleanup`: when `__created`, terminate the process, drop
the handle, clear `__created` and remove the socket file if it exists; else
raise `RuntimeError`. -/
def cleanup (σ : KVState V) : Option PyErr × KVState V :=
  if σ.created then
    (none, { σ with created := false, procAlive := false, socketExists := false })
  else (some .runtimeError, σ)

/-- Embedding of `connect`: requires `__created`; `attachOk` is the outcome
of the external `plasma.connect(socket_path)` call.  On success
`_connected` becomes true; on failure `cleanup()` runs and a
`ConnectionError` is raised; on a never-created instance a
`ConnectionError` is raised directly. -/
def connect (attachOk : Bool) (σ : KVState V) : Option PyErr × KVState V :=
  if σ.created then
    if attachOk then (none, { σ with connected := true })
    else (some .connectionError, (cleanup σ).2)
  else (some .connectionError, σ)

/-- Embedding of `disconnect`: guarded by `@check_connected`; `detachOk` is
the outcome of the external `client.disconnect()` call.  On success
`_connected` becomes false; on failure a `ConnectionError` is raised and
`_connected` is left unchanged. -/
def disconnect (detachOk : Bool) (σ : KVState V) : Option PyErr × KVState V :=
  if !σ.connected then (some .connectionError, σ)
  else if detachOk then (none, { σ with connected := false })
  else (some .connectionError, σ)

/-- A freshly constructed, never-created instance (`create=False`) whose
backing store would have the given capacity. -/
def freshState (cap : Nat) : KVState V :=
  { created := false, connected := false, procAlive := false,
    socketExists := false, store := { capacity := cap, entries := [] } }

end PlasmaKV

namespace PlasmaKV

/-! ### Injectivity of the key canonicalization, per key type -/

/-- Value of a little-endian decimal digit list. -/
def ofDigitsRev : List Nat → Nat
  | [] => 0
  | d :: ds => d + 10 * ofDigitsRev ds

theorem ofDigitsRev_natDigitsRev : ∀ (fuel n : Nat), n ≤ fuel →
    ofDigitsRev (natDigitsRev fuel n) = n := by
  intro fuel
  induction fuel with
  | zero =>
    intro n h
    have hn : n = 0 := Nat.le_zero.mp h
    simp [natDigitsRev, ofDigitsRev, hn]
  | succ fuel ih =>
    intro n h
    by_cases hn : n = 0
    · simp [natDigitsRev, ofDigitsRev, hn]
    · have hdiv : n / 10 ≤ fuel := by
        have := Nat.div_lt_self (Nat.pos_of_ne_zero hn) (by norm_num : 1 < 10)
        omega
      simp only [natDigitsRev, if_neg hn, ofDigitsRev]
      rw [ih _ hdiv]
      omega

theorem natDigitsRev_mem_lt : ∀ (fuel n : Nat) (d : Nat),
    d ∈ natDigitsRev fuel n → d < 10 := by
  intro fuel
  induction fuel with
  | zero => intro n d h; simp [natDigitsRev] at h
  | succ fuel ih =>
    intro n d h
    by_cases hn : n = 0
    · simp [natDigitsRev, hn] at h
    · simp only [natDigitsRev, if_neg hn, List.mem_cons] at h
      rcases h with h | h
      · omega
      · exact ih _ _ h

theorem natDecimal_mem_range : ∀ (n : Nat) (b : Nat), b ∈ natDecimal n →
    48 ≤ b ∧ b < 58 := by
  intro n b h
  by_cases hn : n = 0
  · simp [natDecimal, hn] at h
    omega
  · simp only [natDecimal, if_neg hn, List.mem_map, List.mem_reverse] at h
    obtain ⟨d, hd, rfl⟩ := h
    have := natDigitsRev_mem_lt n n d hd
    omega

theorem natDecimal_ne_nil (n : Nat) : natDecimal n ≠ [] := by
  by_cases hn : n = 0
  · simp [natDecimal, hn]
  · have : natDigitsRev n n ≠ [] := by
      cases n with
      | zero => exact absurd rfl hn
      | succ m => simp [natDigitsRev]
    simp only [natDecimal, if_neg hn]
    intro h
    rw [List.map_eq_nil_iff, List.reverse_eq_nil_iff] at h
    exact this h

theorem natDecimal_injective : ∀ (m n : Nat), natDecimal m = natDecimal n → m = n := by
  have digitsOf : ∀ (k : Nat), k ≠ 0 →
      natDecimal k = ((natDigitsRev k k).reverse.map (fun d => d + 48)) := by
    intro k hk; simp [natDecimal, hk]
  have mapinj : ∀ (l1 l2 : List Nat),
      l1.map (fun d => d + 48) = l2.map (fun d => d + 48) → l1 = l2 := by
    intro l1 l2 h
    have : Function.Injective (fun d : Nat => d + 48) := fun a b hab => by
      simp only [Nat.add_right_cancel_iff] at hab
      exact hab
    exact List.map_injective_iff.mpr this h
  intro m n h
  by_cases hm : m = 0 <;> by_cases hn : n = 0
  · omega
  · rw [hm, digitsOf n hn] at h
    have h48 : natDecimal 0 = ([0] : List Nat).map (fun d => d + 48) := by
      simp [natDecimal]
    rw [h48] at h
    have : ([0] : List Nat) = (natDigitsRev n n).reverse := mapinj _ _ h
    have hrev : natDigitsRev n n = [0] := by
      have := congrArg List.reverse this
      simpa using this.symm
    have := ofDigitsRev_natDigitsRev n n (le_refl n)
    rw [hrev] at this
    simp [ofDigitsRev] at this
    omega
  · rw [hn, digitsOf m hm] at h
    have h48 : natDecimal 0 = ([0] : List Nat).map (fun d => d + 48) := by
      simp [natDecimal]
    rw [h48] at h
    have : (natDigitsRev m m).reverse = ([0] : List Nat) := mapinj _ _ h
    have hrev : natDigitsRev m m = [0] := by
      have := congrArg List.reverse this
      simpa using this
    have := ofDigitsRev_natDigitsRev m m (le_refl m)
    rw [hrev] at this
    simp [ofDigitsRev] at this
    omega
  · rw [digitsOf m hm, digitsOf n hn] at h
    have := mapinj _ _ h
    have hd : natDigitsRev m m = natDigitsRev n n := by
      have := congrArg List.reverse this
      simpa using this
    have hm' := ofDigitsRev_natDigitsRev m m (le_refl m)
    have hn' := ofDigitsRev_natDigitsRev n n (le_refl n)
    rw [hd] at hm'
    omega

theorem intDecimal_injective : ∀ (i j : Int), intDecimal i = intDecimal j → i = j := by
  intro i j h
  by_cases hi : i < 0 <;> by_cases hj : j < 0
  · simp only [intDecimal, if_pos hi, if_pos hj, List.cons.injEq] at h
    have := natDecimal_injective _ _ h.2
    omega
  · simp only [intDecimal, if_pos hi, if_neg hj] at h
    have : (45 : Nat) ∈ natDecimal j.natAbs := by rw [← h]; simp
    have := natDecimal_mem_range _ _ this
    omega
  · simp only [intDecimal, if_neg hi, if_pos hj] at h
    have : (45 : Nat) ∈ natDecimal i.natAbs := by rw [h]; simp
    have := natDecimal_mem_range _ _ this
    omega
  · simp only [intDecimal, if_neg hi, if_neg hj] at h
    have := natDecimal_injective _ _ h
    omega

end PlasmaKV

namespace PlasmaKV

/-! ### UTF-8 decoding, used only to prove the encoding injective -/

/-- Decode a UTF-8 byte string back into codepoints (`fuel` bounds the
recursion; the byte length is always enough).  Only used to prove
`utf8EncodeCps` injective. -/
def utf8DecodeFuel : Nat → List Nat → Option (List Nat)
  | _, [] => some []
  | 0, _ :: _ => none
  | fuel + 1, b :: bs =>
    if b < 0x80 then (utf8DecodeFuel fuel bs).map (fun cs => b :: cs)
    else if b < 0xE0 then
      match bs with
      | b1 :: bs' =>
        (utf8DecodeFuel fuel bs').map (fun cs => ((b - 0xC0) * 64 + (b1 - 0x80)) :: cs)
      | [] => none
    else if b < 0xF0 then
      match bs with
      | b1 :: b2 :: bs' =>
        (utf8DecodeFuel fuel bs').map
          (fun cs => ((b - 0xE0) * 4096 + (b1 - 0x80) * 64 + (b2 - 0x80)) :: cs)
      | _ => none
    else
      match bs with
      | b1 :: b2 :: b3 :: bs' =>
        (utf8DecodeFuel fuel bs').map
          (fun cs =>
            ((b - 0xF0) * 0x40000 + (b1 - 0x80) * 4096 + (b2 - 0x80) * 64 + (b3 - 0x80)) :: cs)
      | _ => none

theorem utf8DecodeFuel_encode : ∀ (cs : List Nat) (fuel : Nat),
    (∀ c ∈ cs, c < 0x110000) → (utf8EncodeCps cs).length ≤ fuel →
    utf8DecodeFuel fuel (utf8EncodeCps cs) = some cs := by
  intro cs
  induction cs with
  | nil =>
    intro fuel _ _
    cases fuel <;> simp [utf8EncodeCps, utf8DecodeFuel]
  | cons c cs ih =>
    intro fuel hvalid hlen
    have hc : c < 0x110000 := hvalid c (List.mem_cons_self c cs)
    have hvalid' : ∀ x ∈ cs, x < 0x110000 := fun x hx => hvalid x (List.mem_cons_of_mem c hx)
    rw [show utf8EncodeCps (c :: cs) = utf8EncodeCp c ++ utf8EncodeCps cs from rfl] at hlen ⊢
    by_cases h1 : c < 0x80
    · rw [show utf8EncodeCp c = [c] by simp [utf8EncodeCp, h1]] at hlen ⊢
      simp only [List.cons_append, List.nil_append, List.length_cons] at hlen ⊢
      cases fuel with
      | zero => omega
      | succ f =>
        have hf : (utf8EncodeCps cs).length ≤ f := by omega
        simp only [utf8DecodeFuel, if_pos h1, ih f hvalid' hf]
        rfl
    · by_cases h2 : c < 0x800
      · rw [show utf8EncodeCp c = [0xC0 + c / 64, 0x80 + c % 64] by
          simp [utf8EncodeCp, h1, h2]] at hlen ⊢
        simp only [List.cons_append, List.nil_append, List.length_cons] at hlen ⊢
        cases fuel with
        | zero => omega
        | succ f =>
          have hf : (utf8EncodeCps cs).length ≤ f := by omega
          have g1 : ¬(0xC0 + c / 64 < 0x80) := by omega
          have g2 : 0xC0 + c / 64 < 0xE0 := by omega
          simp only [utf8DecodeFuel, if_neg g1, if_pos g2, ih f hvalid' hf]
          have : (0xC0 + c / 64 - 0xC0) * 64 + (0x80 + c % 64 - 0x80) = c := by omega
          rw [this]
          rfl
      · by_cases h3 : c < 0x10000
        · rw [show utf8EncodeCp c = [0xE0 + c / 4096, 0x80 + c / 64 % 64, 0x80 + c % 64] by
            simp [utf8EncodeCp, h1, h2, h3]] at hlen ⊢
          simp only [List.cons_append, List.nil_append, List.length_cons] at hlen ⊢
          cases fuel with
          | zero => omega
          | succ f =>
            have hf : (utf8EncodeCps cs).length ≤ f := by omega
            have g1 : ¬(0xE0 + c / 4096 < 0x80) := by omega
            have g2 : ¬(0xE0 + c / 4096 < 0xE0) := by omega
            have g3 : 0xE0 + c / 4096 < 0xF0 := by omega
            simp only [utf8DecodeFuel, if_neg g1, if_neg g2, if_pos g3, ih f hvalid' hf]
            have : (0xE0 + c / 4096 - 0xE0) * 4096 + (0x80 + c / 64 % 64 - 0x80) * 64 +
                (0x80 + c % 64 - 0x80) = c := by omega
            rw [this]
            rfl
        · rw [show utf8EncodeCp c =
              [0xF0 + c / 0x40000, 0x80 + c / 4096 % 64, 0x80 + c / 64 % 64, 0x80 + c % 64] by
            simp [utf8EncodeCp, h1, h2, h3]] at hlen ⊢
          simp only [List.cons_append, List.nil_append, List.length_cons] at hlen ⊢
          cases fuel with
          | zero => omega
          | succ f =>
            have hf : (utf8EncodeCps cs).length ≤ f := by omega
            have g1 : ¬(0xF0 + c / 0x40000 < 0x80) := by omega
            have g2 : ¬(0xF0 + c / 0x40000 < 0xE0) := by omega
            have g3 : ¬(0xF0 + c / 0x40000 < 0xF0) := by omega
            simp only [utf8DecodeFuel, if_neg g1, if_neg g2, if_neg g3, ih f hvalid' hf]
            have : (0xF0 + c / 0x40000 - 0xF0) * 0x40000 + (0x80 + c / 4096 % 64 - 0x80) * 4096 +
                (0x80 + c / 64 % 64 - 0x80) * 64 + (0x80 + c % 64 - 0x80) = c := by omega
            rw [this]
            rfl

theorem utf8EncodeCps_inj (a b : List Nat) (ha : ∀ c ∈ a, c < 0x110000)
    (hb : ∀ c ∈ b, c < 0x110000) (h : utf8EncodeCps a = utf8EncodeCps b) : a = b := by
  have la := utf8DecodeFuel_encode a (utf8EncodeCps a).length ha (le_refl _)
  have lb := utf8DecodeFuel_encode b (utf8EncodeCps b).length hb (le_refl _)
  rw [h] at la
  rw [lb] at la
  exact (Option.some.inj la).symm

theorem char_toNat_lt (c : Char) : c.toNat < 0x110000 := by
  rcases c.valid with h | ⟨_, h2⟩
  · exact Nat.lt_trans h (by norm_num)
  · exact h2

theorem char_toNat_injective : Function.Injective Char.toNat := by
  intro a b h
  apply Char.ext
  apply UInt32.ext
  exact h

theorem strEncode_injective : ∀ (s1 s2 : String), strEncode s1 = strEncode s2 → s1 = s2 := by
  intro s1 s2 h
  have valid : ∀ (s : String), ∀ c ∈ s.data.map Char.toNat, c < 0x110000 := by
    intro s c hc
    rw [List.mem_map] at hc
    obtain ⟨ch, _, rfl⟩ := hc
    exact char_toNat_lt ch
  have hdata := utf8EncodeCps_inj _ _ (valid s1) (valid s2) h
  have := List.map_injective_iff.mpr char_toNat_injective hdata
  exact String.ext this

end PlasmaKV

namespace PlasmaKV

/-! ### Helper lemmas about the plasma store model -/

theorem findEntry_removeOids {V : Type} (oid : List Nat) (oids : List (List Nat))
    (h : oid ∈ oids) : ∀ (es : List (PEntry V)), findEntry oid (removeOids oids es) = none := by
  intro es
  induction es with
  | nil => simp [removeOids, findEntry]
  | cons e es ih =>
    by_cases he : e.oid ∈ oids
    · simp only [removeOids, if_pos he]
      exact ih
    · have hne : e.oid ≠ oid := fun heq => he (heq ▸ h)
      simp only [removeOids, if_neg he, findEntry, if_neg hne]
      exact ih

theorem removeOids_noop {V : Type} (oid : List Nat) :
    ∀ (es : List (PEntry V)), findEntry oid es = none → removeOids [oid] es = es := by
  intro es
  induction es with
  | nil => simp [removeOids]
  | cons e es ih =>
    intro h
    simp only [findEntry] at h
    by_cases hne : e.oid = oid
    · simp [if_pos hne] at h
    · simp only [if_neg hne] at h
      have : e.oid ∉ [oid] := by simp [hne]
      simp only [removeOids, if_neg this]
      rw [ih h]

theorem removeOids_append {V : Type} (oids : List (List Nat)) :
    ∀ (es es2 : List (PEntry V)),
    removeOids oids (es ++ es2) = removeOids oids es ++ removeOids oids es2 := by
  intro es es2
  induction es with
  | nil => simp [removeOids]
  | cons e es ih =>
    by_cases he : e.oid ∈ oids
    · simp only [List.cons_append, removeOids, if_pos he]
      exact ih
    · simp only [List.cons_append, removeOids, if_neg he]
      rw [show es.append es2 = es ++ es2 from rfl, ih]

theorem findEntry_append_of_none {V : Type} (oid : List Nat) (es es2 : List (PEntry V))
    (h : findEntry oid es = none) : findEntry oid (es ++ es2) = findEntry oid es2 := by
  induction es with
  | nil => simp
  | cons e es ih =>
    simp only [findEntry] at h
    by_cases hne : e.oid = oid
    · simp [if_pos hne] at h
    · simp only [if_neg hne] at h
      simp only [List.cons_append, findEntry, if_neg hne]
      exact ih h

/-! ### Claim theorems -/

/-- C7 (confirmed): every data or capacity operation of the store —
`put` (`__setitem__`), `get` (`__getitem__`), the public `delete` (with a
scalar or a list argument), `contains`, `len`, iteration, `keys`, `values`,
`replace`, and the used/available/capacity queries — invoked on an instance
that is not in the Connected state fails with a `ConnectionError` and
leaves the state (in particular the store contents) unchanged. -/
theorem c7_guard_blocks_all_ops {V : Type} (psz : PKey → V → Nat × Nat) (σ : KVState V)
    (k : PKey) (v : V) (arg : PyArg) (hr : Bool) (h : σ.connected = false) :
    setitem psz k v σ = (some .connectionError, σ) ∧
    getitem k σ = .error .connectionError ∧
    delete arg σ = (some .connectionError, σ) ∧
    containsOp k σ = .error .connectionError ∧
    lenOp σ = .error .connectionError ∧
    iterOp σ = .error .connectionError ∧
    keysOp σ = .error .connectionError ∧
    valuesOp σ = .error .connectionError ∧
    replace psz k v σ = (some .connectionError, σ) ∧
    get_used_memory hr σ = .error .connectionError ∧
    get_available_memory hr σ = .error .connectionError ∧
    get_store_capacity hr σ = .error .connectionError := by
  cases arg <;>
    simp [setitem, getitem, delete, delitem, containsOp, lenOp, iterOp, keysOp,
      valuesOp, replace, get_used_memory, get_available_memory, get_store_capacity, h]

/-- Witness for C7 at a concrete never-connected instance. -/
theorem c7_witness :
    setitem (fun (_ : PKey) (_ : Nat) => (1, 0)) (.str "a") 0 (freshState 100) =
      (some .connectionError, freshState 100) ∧
    getitem (.str "a") (freshState (V := Nat) 100) = .error .connectionError ∧
    delete (.scalar (.str "a")) (freshState (V := Nat) 100) =
      (some .connectionError, freshState 100) ∧
    lenOp (freshState (V := Nat) 100) = .error .connectionError := by
  have h := c7_guard_blocks_all_ops (fun (_ : PKey) (_ : Nat) => (1, 0)) (freshState 100)
    (.str "a") 0 (.scalar (.str "a")) false rfl
  exact ⟨h.1, h.2.1, h.2.2.1, h.2.2.2.2.1⟩

theorem set_multi_loop_eq_putPairs {V : Type} (psz : PKey → V → Nat × Nat) :
    ∀ (ks : List PKey) (vs : List V) (σ : KVState V),
    set_multi_loop psz ks vs σ = putPairs psz (ks.zip vs) σ := by
  intro ks
  induction ks with
  | nil => intro vs σ; simp [set_multi_loop, putPairs]
  | cons k ks ih =>
    intro vs σ
    cases vs with
    | nil => simp [set_multi_loop, putPairs]
    | cons v vs =>
      simp only [set_multi_loop, List.zip_cons_cons, putPairs]
      cases hstep : setitem psz k v σ with
      | mk e σ' =>
        cases e with
        | none => exact ih vs σ'
        | some err => rfl

/-- C8 (confirmed): `set_multi(keys, values)` with lists of different
lengths fails with the `ValueError` length-mismatch error and returns the
state unchanged — the check precedes every write, so the store contents and
`len()` are untouched; with equal lengths it is exactly the sequential
application of single-key `put` (`__setitem__`) to each `(key, value)`
pair. -/
theorem c8_set_multi_validates_first {V : Type} (psz : PKey → V → Nat × Nat)
    (σ : KVState V) (ks : List PKey) (vs : List V) :
    (ks.length ≠ vs.length → set_multi psz ks vs σ = (some .valueError, σ)) ∧
    (ks.length = vs.length → set_multi psz ks vs σ = putPairs psz (ks.zip vs) σ) := by
  constructor
  · intro h
    simp [set_multi, h]
  · intro h
    simp only [set_multi, h, ne_eq, not_true_eq_false, if_neg, ite_false]
    exact set_multi_loop_eq_putPairs psz ks vs σ

/-- Witness for C8: a concrete length mismatch is rejected with the store
unchanged, and a concrete equal-length call runs the per-pair puts. -/
theorem c8_witness :
    set_multi (fun (_ : PKey) (_ : Nat) => (1, 0)) [.str "a", .str "b"] [1] (freshState 10) =
      (some .valueError, freshState 10) ∧
    set_multi (fun (_ : PKey) (_ : Nat) => (1, 0)) [.str "a"] [1] (freshState 10) =
      putPairs (fun (_ : PKey) (_ : Nat) => (1, 0)) [(.str "a", 1)] (freshState 10) := by
  constructor
  · exact (c8_set_multi_validates_first (fun _ _ => (1, 0)) (freshState 10)
      [.str "a", .str "b"] [1]).1 (by decide)
  · exact (c8_set_multi_validates_first (fun _ _ => (1, 0)) (freshState 10)
      [.str "a"] [1]).2 rfl

/-- C9 (confirmed): on an instance whose backing process was created, a
`connect()` whose attach step fails runs `cleanup()` before surfacing the
`ConnectionError`: the backing process is terminated and the socket file
removed (and the created flag cleared), so no orphaned process or socket
remains. -/
theorem c9_failed_connect_cleans_up {V : Type} (σ : KVState V) (h : σ.created = true) :
    (connect false σ).1 = some .connectionError ∧
    (connect false σ).2.procAlive = false ∧
    (connect false σ).2.socketExists = false ∧
    (connect false σ).2.created = false := by
  simp [connect, cleanup, h]

/-- Witness for C9 at the concrete state reached by a successful create. -/
theorem c9_witness :
    (connect false ((create_plasma_store true (freshState (V := Nat) 5)).2)).1 =
      some .connectionError ∧
    (connect false ((create_plasma_store true (freshState (V := Nat) 5)).2)).2.procAlive =
      false ∧
    (connect false ((create_plasma_store true (freshState (V := Nat) 5)).2)).2.socketExists =
      false := by
  have h := c9_failed_connect_cleans_up
    ((create_plasma_store true (freshState (V := Nat) 5)).2) rfl
  exact ⟨h.1, h.2.1, h.2.2.1⟩

/-- Counterexample to C6 as stated: on a created instance, after a
successful `connect()` and a successful `disconnect()`, a second
`connect()` succeeds and returns the very same instance to Connected — the
code keeps `__created` true across `disconnect`, so Disconnected is not
terminal and no fresh instance is required. -/
theorem c6_counterexample :
    (disconnect true ((connect true
      ((create_plasma_store true (freshState (V := Nat) 10)).2)).2)).1 = none ∧
    (connect true ((disconnect true ((connect true
      ((create_plasma_store true (freshState (V := Nat) 10)).2)).2)).2)).1 = none ∧
    (connect true ((disconnect true ((connect true
      ((create_plasma_store true (freshState (V := Nat) 10)).2)).2)).2)).2.connected = true := by
  exact ⟨rfl, rfl, rfl⟩

/-- C6 (amended): the instance does transition Created→Connected→
Disconnected, but Disconnected is not terminal: `disconnect()` leaves the
created flag set, so a later `connect()` on the same instance (whose attach
step succeeds, the backing process still running) returns it to Connected. -/
theorem c6_reconnect_allowed {V : Type} (σ : KVState V)
    (hcreated : σ.created = true) (hconn : σ.connected = true) :
    (disconnect true σ).1 = none ∧
    (disconnect true σ).2.connected = false ∧
    (disconnect true σ).2.created = true ∧
    (connect true (disconnect true σ).2).1 = none ∧
    (connect true (disconnect true σ).2).2.connected = true := by
  simp [disconnect, connect, hconn, hcreated]

/-- Witness for the amended C6 at the concrete created-and-connected state. -/
theorem c6_witness :
    (connect true ((disconnect true ((connect true
      ((create_plasma_store true (freshState (V := Nat) 7)).2)).2)).2)).2.connected = true := by
  exact (c6_reconnect_allowed
    ((connect true ((create_plasma_store true (freshState (V := Nat) 7)).2)).2)
    rfl rfl).2.2.2.2

end PlasmaKV

namespace PlasmaKV

/-! ### A concrete connected store used by the concrete counterexamples:
capacity 10 bytes, holding only the key `"a"` with value `1`
(data size 3, metadata size 0). -/

/-- The stored object for key `"a"`: its ObjectID is the 20-byte BLAKE2b
digest of `"a"`. -/
def entryA : PEntry Nat :=
  ⟨blake2b 20 (strEncode "a"), .str "a", 1, 3, 0⟩

/-- A created-and-connected instance whose backing store holds only
`entryA`. -/
def sigmaA : KVState Nat :=
  { created := true, connected := true, procAlive := true, socketExists := true,
    store := { capacity := 10, entries := [entryA] } }

/-- Fixed serialization-size function for the concrete runs: every object
occupies 3 bytes of data and 0 of metadata. -/
def psz3 : PKey → Nat → Nat × Nat := fun _ _ => (3, 0)

/-- Counterexample to C1 as stated: the public `delete` called with the
scalar key `"a"` on a store containing `"a"` does not raise a `TypeError` —
it wraps the scalar into a one-element list, succeeds, and the key is
deleted. -/
theorem c1_counterexample :
    (delete (.scalar (.str "a")) sigmaA).1 = none ∧
    (delete (.scalar (.str "a")) sigmaA).2.store.entries = [] := by
  constructor <;> rfl

/-- C1 (amended): the public `delete` accepts both a scalar key and a list
of keys — a scalar is wrapped into a one-element list and deleted; only the
low-level `__delitem__` rejects a non-list argument with a `TypeError`
(after the connection guard), deleting nothing. -/
theorem c1_delete_wraps_scalar {V : Type} (σ : KVState V) (k : PKey) (ks : List PKey) :
    delete (.scalar k) σ = delitem (.listArg [k]) σ ∧
    delete (.listArg ks) σ = delitem (.listArg ks) σ ∧
    (σ.connected = true → delitem (.scalar k) σ = (some .typeError, σ)) := by
  refine ⟨rfl, rfl, fun h => ?_⟩
  simp [delitem, h]

/-- Witness for the amended C1: on the concrete connected store,
`__delitem__` with a scalar raises `TypeError` and changes nothing. -/
theorem c1_witness :
    delitem (.scalar (.str "b")) sigmaA = (some .typeError, sigmaA) := by
  exact (c1_delete_wraps_scalar sigmaA (.str "b") []).2.2 rfl

/-- C2 (code bug): evaluating `get_multi(["a", "missing"])` on the store
that contains only `"a"` shows the absent key is NOT omitted: the loop
`local_dict[key] = self[key]` inserts `"missing"` mapped to `None`,
contradicting the docstring ("If key is not present in the DB, it is not
present in the returned dictionary") and the spec. -/
theorem c2_get_multi_includes_absent_key :
    get_multi [.str "a", .str "missing"] sigmaA =
      .ok [(.str "a", some 1), (.str "missing", none)] := by
  rfl

end PlasmaKV

namespace PlasmaKV

/-! ### Digest length of BLAKE2b -/

theorem blakeCompress_length (h m : List Nat) (t : Nat) (last : Bool) :
    (blakeCompress h m t last).length = 8 := by
  simp [blakeCompress]

theorem blake2bLoop_length : ∀ (fuel : Nat) (h msg : List Nat) (t : Nat),
    h.length = 8 → (blake2bLoop fuel h msg t).length = 8 := by
  intro fuel
  induction fuel with
  | zero => intro h msg t hh; simpa [blake2bLoop] using hh
  | succ f ih =>
    intro h msg t hh
    by_cases hm : msg.length ≤ 128
    · simp [blake2bLoop, hm, blakeCompress_length]
    · simp only [blake2bLoop, if_neg hm]
      exact ih _ _ _ (blakeCompress_length _ _ _ _)

theorem flatMap_wordToBytesLE_length : ∀ (l : List Nat),
    (l.flatMap wordToBytesLE).length = 8 * l.length := by
  intro l
  induction l with
  | nil => simp
  | cons w l ih =>
    simp only [List.flatMap_cons, List.length_append, ih, List.length_cons]
    simp [wordToBytesLE]
    omega

theorem blake2b_length (nn : Nat) (msg : List Nat) (h : nn ≤ 64) :
    (blake2b nn msg).length = nn := by
  have hIV : (blakeIV.set 0 ((blakeIV.getD 0 0) ^^^ (0x01010000 ^^^ nn))).length = 8 := by
    rw [List.length_set]
    rfl
  have hloop := blake2bLoop_length (msg.length + 1)
    (blakeIV.set 0 ((blakeIV.getD 0 0) ^^^ (0x01010000 ^^^ nn))) msg 0 hIV
  simp only [blake2b]
  rw [List.length_take, flatMap_wordToBytesLE_length, hloop]
  omega

/-- Counterexample to C5 as stated: hashing a key of an unsupported type
(e.g. a float) does fail, but with `UnboundLocalError` — no branch of the
`isinstance` chain assigns `hash_value` and there is no `else` raising
`TypeError` — so the failure is not a TypeKind error. -/
theorem c5_counterexample :
    gen_hash (.other "float") 20 = .error .unboundLocalError ∧
    PyErr.unboundLocalError ≠ PyErr.typeError := by
  exact ⟨rfl, by decide⟩

/-- C5 (amended): for a key that is not text, not raw bytes and not an
integer, `gen_hash` fails — with an `UnboundLocalError` (the `isinstance`
chain has no `else` branch), not a TypeKind error; for text, bytes and
integer keys it returns the BLAKE2b digest of the canonical bytes, of
exactly the requested width (for any width hashlib accepts, 1..64). -/
theorem c5_gen_hash_key_types (k : PKey) (d : Nat) (h1 : 1 ≤ d) (h2 : d ≤ 64) :
    (canonicalBytes k = none → gen_hash k d = .error .unboundLocalError) ∧
    (∀ bs, canonicalBytes k = some bs →
      gen_hash k d = .ok (blake2b d bs) ∧ (blake2b d bs).length = d) := by
  constructor
  · intro h
    simp [gen_hash, h]
  · intro bs h
    exact ⟨by simp [gen_hash, h], blake2b_length d bs h2⟩

/-- Witness for the amended C5: a concrete unsupported key errors with
`UnboundLocalError`, and a concrete text key yields a 20-byte digest. -/
theorem c5_witness :
    gen_hash (.other "dict") 20 = .error .unboundLocalError ∧
    gen_hash (.str "key") 20 = .ok (blake2b 20 (strEncode "key")) ∧
    (blake2b 20 (strEncode "key")).length = 20 := by
  have ha := (c5_gen_hash_key_types (.other "dict") 20 (by decide) (by decide)).1 rfl
  have hb := (c5_gen_hash_key_types (.str "key") 20 (by decide) (by decide)).2
    (strEncode "key") rfl
  exact ⟨ha, hb.1, hb.2⟩

/-- Counterexample to C4 as stated: the text key `"5"` and the integer key
`5` are different keys of different types, yet both canonicalize to the
byte string `b"5"` and therefore map to the same ObjectId. -/
theorem c4_counterexample :
    gen_hash (.str "5") 20 = gen_hash (.int 5) 20 ∧ PKey.str "5" ≠ PKey.int 5 := by
  exact ⟨rfl, by decide⟩

/-- C4 (amended): two supported keys map to the same ObjectId iff the
BLAKE2b digests of their canonical byte encodings coincide; within one key
type the canonical encoding is injective (so two distinct same-type keys
collide only on a BLAKE2b collision), but keys of different types whose
canonical encodings coincide — such as the text key "5" and the integer
key 5 — map to the same ObjectId. -/
theorem c4_objectid_eq_iff_digest_eq (k1 k2 : PKey) (d : Nat) :
    (∀ b1 b2, canonicalBytes k1 = some b1 → canonicalBytes k2 = some b2 →
      (gen_hash k1 d = gen_hash k2 d ↔ blake2b d b1 = blake2b d b2)) ∧
    (sameKind k1 k2 = true → (k1 = k2 ↔ canonicalBytes k1 = canonicalBytes k2)) := by
  constructor
  · intro b1 b2 h1 h2
    simp [gen_hash, h1, h2]
  · intro hk
    refine ⟨fun h => by rw [h], fun h => ?_⟩
    cases k1 with
    | str s1 =>
      cases k2 with
      | str s2 =>
        simp only [canonicalBytes, Option.some.injEq] at h
        rw [strEncode_injective s1 s2 h]
      | bytes b => simp [sameKind] at hk
      | int i => simp [sameKind] at hk
      | other t => simp [sameKind] at hk
    | bytes b1 =>
      cases k2 with
      | str s => simp [sameKind] at hk
      | bytes b2 =>
        simp only [canonicalBytes, Option.some.injEq] at h
        rw [h]
      | int i => simp [sameKind] at hk
      | other t => simp [sameKind] at hk
    | int i1 =>
      cases k2 with
      | str s => simp [sameKind] at hk
      | bytes b => simp [sameKind] at hk
      | int i2 =>
        simp only [canonicalBytes, Option.some.injEq] at h
        rw [intDecimal_injective i1 i2 h]
      | other t => simp [sameKind] at hk
    | other t1 =>
      cases k2 <;> simp [sameKind] at hk

/-- Witness for the amended C4: the text key "a" and the byte key `b"a"`
share their canonical encoding and hence their ObjectId; and a same-type
equality instance of the iff. -/
theorem c4_witness :
    gen_hash (.str "a") 20 = gen_hash (.bytes [97]) 20 ∧
    (PKey.int 12 = PKey.int 12 ↔ canonicalBytes (.int 12) = canonicalBytes (.int 12)) := by
  constructor
  · exact ((c4_objectid_eq_iff_digest_eq (.str "a") (.bytes [97]) 20).1
      (strEncode "a") [97] rfl rfl).mpr rfl
  · exact (c4_objectid_eq_iff_digest_eq (.int 12) (.int 12) 20).2 rfl

end PlasmaKV

namespace PlasmaKV

/-! ### Behaviour of `put` / `replace` on concrete presence and capacity
conditions -/

theorem findEntry_singleton {V : Type} (oid : List Nat) (k : PKey) (v : V) (a b : Nat) :
    findEntry oid [(⟨oid, k, v, a, b⟩ : PEntry V)] = some ⟨oid, k, v, a, b⟩ := by
  simp [findEntry]

/-- A `put` of a fresh key that fits appends the object. -/
theorem setitem_new {V : Type} (psz : PKey → V → Nat × Nat) (σ : KVState V)
    (k : PKey) (v : V) (oid : List Nat)
    (hconn : σ.connected = true) (hoid : gen_object_id k = .ok oid)
    (habs : findEntry oid σ.store.entries = none)
    (hcap : usedMem σ.store + (psz k v).1 + (psz k v).2 ≤ σ.store.capacity) :
    setitem psz k v σ = (none, { σ with store :=
      { σ.store with
        entries := σ.store.entries ++ [⟨oid, k, v, (psz k v).1, (psz k v).2⟩] } }) := by
  simp [setitem, hconn, hoid, plasmaPut, habs, Nat.not_lt.mpr hcap]

/-- A `put` of an already present key is a silent no-op. -/
theorem setitem_exists {V : Type} (psz : PKey → V → Nat × Nat) (σ : KVState V)
    (k : PKey) (v : V) (oid : List Nat)
    (hconn : σ.connected = true) (hoid : gen_object_id k = .ok oid)
    (hpres : (findEntry oid σ.store.entries).isSome = true) :
    setitem psz k v σ = (none, σ) := by
  simp [setitem, hconn, hoid, plasmaPut, hpres]

/-- A `get` of a present key returns its stored value. -/
theorem getitem_found {V : Type} (σ : KVState V) (k : PKey) (oid : List Nat) (e : PEntry V)
    (hconn : σ.connected = true) (hoid : gen_object_id k = .ok oid)
    (hfind : findEntry oid σ.store.entries = some e) :
    getitem k σ = .ok (some e.val) := by
  simp [getitem, hconn, hoid, hfind]

/-- `client.put` of a fresh object that fits appends it. -/
theorem plasmaPut_absent_fits {V : Type} (psz : PKey → V → Nat × Nat) (oid : List Nat)
    (k : PKey) (v : V) (s : PStore V)
    (habs : findEntry oid s.entries = none)
    (hcap : usedMem s + (psz k v).1 + (psz k v).2 ≤ s.capacity) :
    plasmaPut psz oid k v s =
      .ok { s with entries := s.entries ++ [⟨oid, k, v, (psz k v).1, (psz k v).2⟩] } := by
  simp [plasmaPut, habs, Nat.not_lt.mpr hcap]

/-- `client.put` of a fresh object that does not fit raises
`PlasmaStoreFull`. -/
theorem plasmaPut_absent_full {V : Type} (psz : PKey → V → Nat × Nat) (oid : List Nat)
    (k : PKey) (v : V) (s : PStore V)
    (habs : findEntry oid s.entries = none)
    (hfull : s.capacity < usedMem s + (psz k v).1 + (psz k v).2) :
    plasmaPut psz oid k v s = .storeFull := by
  simp [plasmaPut, habs, hfull]

/-- A `replace` whose put fits deletes any old object and stores the new
one. -/
theorem replace_ok {V : Type} (psz : PKey → V → Nat × Nat) (σ : KVState V)
    (k : PKey) (v : V) (oid : List Nat)
    (hconn : σ.connected = true) (hoid : gen_object_id k = .ok oid)
    (hcap : usedMem (plasmaDelete [oid] σ.store) + (psz k v).1 + (psz k v).2 ≤
      σ.store.capacity) :
    replace psz k v σ = (none, { σ with store :=
      { σ.store with
        entries := removeOids [oid] σ.store.entries ++
          [⟨oid, k, v, (psz k v).1, (psz k v).2⟩] } }) := by
  have habs : findEntry oid (plasmaDelete [oid] σ.store).entries = none :=
    findEntry_removeOids oid [oid] (by simp) σ.store.entries
  have hput := plasmaPut_absent_fits psz oid k v (plasmaDelete [oid] σ.store) habs
    (by simpa [plasmaDelete] using hcap)
  simp only [plasmaDelete] at hput
  simp [replace, hconn, hoid, plasmaDelete, hput]

/-- A `replace` whose put hits `PlasmaStoreFull` raises `ValueError` with
the old object already deleted. -/
theorem replace_full {V : Type} (psz : PKey → V → Nat × Nat) (σ : KVState V)
    (k : PKey) (v : V) (oid : List Nat)
    (hconn : σ.connected = true) (hoid : gen_object_id k = .ok oid)
    (hfull : σ.store.capacity < usedMem (plasmaDelete [oid] σ.store) + (psz k v).1 +
      (psz k v).2) :
    replace psz k v σ = (some .valueError, { σ with store := plasmaDelete [oid] σ.store }) := by
  have habs : findEntry oid (plasmaDelete [oid] σ.store).entries = none :=
    findEntry_removeOids oid [oid] (by simp) σ.store.entries
  have hput := plasmaPut_absent_full psz oid k v (plasmaDelete [oid] σ.store) habs
    (by simpa [plasmaDelete] using hfull)
  simp only [plasmaDelete] at hput
  simp [replace, hconn, hoid, plasmaDelete, hput]

end PlasmaKV

namespace PlasmaKV

/-- Counterexample to C3 as stated: on a connected store that already holds
`"a" ↦ 1`, the sequence `put("a", 7); put("a", 8); get("a")` returns the
pre-existing `1`, not `7` — "for every connected store" fails as soon as
the key is already present, because the first `put` is itself a no-op. -/
theorem c3_counterexample :
    getitem (.str "a")
      ((setitem psz3 (.str "a") 8 ((setitem psz3 (.str "a") 7 sigmaA).2)).2) =
      .ok (some 1) ∧ (1 : Nat) ≠ 7 := by
  exact ⟨rfl, by decide⟩

/-- C3 (amended): on a connected store, for a key `k` that is not yet
present and fits, `put(k, v1); put(k, v2); get(k)` returns `v1` (the second
put is a silent no-op — first-writer-wins); and for any key that fits,
`replace(k, v1); replace(k, v2); get(k)` returns `v2` (replace
delete-then-puts, overwriting). -/
theorem c3_put_first_wins_replace_overwrites {V : Type} (psz : PKey → V → Nat × Nat)
    (σ : KVState V) (k : PKey) (v1 v2 : V) (oid : List Nat)
    (hconn : σ.connected = true) (hoid : gen_object_id k = .ok oid) :
    (findEntry oid σ.store.entries = none →
      usedMem σ.store + (psz k v1).1 + (psz k v1).2 ≤ σ.store.capacity →
      getitem k ((setitem psz k v2 ((setitem psz k v1 σ).2)).2) = .ok (some v1)) ∧
    (usedMem (plasmaDelete [oid] σ.store) + (psz k v1).1 + (psz k v1).2 ≤
        σ.store.capacity →
      usedMem (plasmaDelete [oid] σ.store) + (psz k v2).1 + (psz k v2).2 ≤
        σ.store.capacity →
      getitem k ((replace psz k v2 ((replace psz k v1 σ).2)).2) = .ok (some v2)) := by
  constructor
  · intro habs hcap
    have hfind1 : findEntry oid
        (σ.store.entries ++ [(⟨oid, k, v1, (psz k v1).1, (psz k v1).2⟩ : PEntry V)]) =
        some ⟨oid, k, v1, (psz k v1).1, (psz k v1).2⟩ := by
      rw [findEntry_append_of_none oid _ _ habs, findEntry_singleton]
    simp [setitem, getitem, plasmaPut, hconn, hoid, habs, Nat.not_lt.mpr hcap, hfind1]
  · intro hcap1 hcap2
    have hrem : findEntry oid (removeOids [oid] σ.store.entries) = none :=
      findEntry_removeOids oid [oid] (by simp) σ.store.entries
    have hdel : removeOids [oid]
        (removeOids [oid] σ.store.entries ++
          [(⟨oid, k, v1, (psz k v1).1, (psz k v1).2⟩ : PEntry V)]) =
        removeOids [oid] σ.store.entries := by
      rw [removeOids_append, removeOids_noop oid _ hrem]
      simp [removeOids]
    have hfind2 : findEntry oid
        (removeOids [oid] σ.store.entries ++
          [(⟨oid, k, v2, (psz k v2).1, (psz k v2).2⟩ : PEntry V)]) =
        some ⟨oid, k, v2, (psz k v2).1, (psz k v2).2⟩ := by
      rw [findEntry_append_of_none oid _ _ hrem, findEntry_singleton]
    have hc1 : ¬ (σ.store.capacity < usedMem
        ({ capacity := σ.store.capacity, entries := removeOids [oid] σ.store.entries } :
          PStore V) + (psz k v1).1 + (psz k v1).2) := by
      simpa [plasmaDelete] using Nat.not_lt.mpr hcap1
    have hc2 : ¬ (σ.store.capacity < usedMem
        ({ capacity := σ.store.capacity, entries := removeOids [oid] σ.store.entries } :
          PStore V) + (psz k v2).1 + (psz k v2).2) := by
      simpa [plasmaDelete] using Nat.not_lt.mpr hcap2
    simp [replace, getitem, plasmaPut, plasmaDelete, hconn, hoid, hrem, hdel, hfind2,
      hc1, hc2]

/-- Witness for the amended C3 on the concrete store: the fresh key `"b"`
put twice reads back the first value, replaced twice reads back the second. -/
theorem c3_witness :
    getitem (.str "b")
      ((setitem psz3 (.str "b") 5 ((setitem psz3 (.str "b") 4 sigmaA).2)).2) =
      .ok (some 4) ∧
    getitem (.str "b")
      ((replace psz3 (.str "b") 5 ((replace psz3 (.str "b") 4 sigmaA).2)).2) =
      .ok (some 5) := by
  have h := c3_put_first_wins_replace_overwrites psz3 sigmaA (.str "b") 4 5
    (blake2b 20 (strEncode "b")) rfl rfl
  exact ⟨h.1 (by decide) (by decide), h.2 (by decide) (by decide)⟩

/-- C10 (confirmed): `replace` is not atomic on capacity failure — on a
connected store holding the key, when the put step hits `PlasmaStoreFull`
the method raises `ValueError` with the old object already deleted, so
afterwards the key is absent rather than still holding its old value. -/
theorem c10_replace_deletes_old_before_failed_put {V : Type}
    (psz : PKey → V → Nat × Nat) (σ : KVState V) (k : PKey) (v : V) (oid : List Nat)
    (hconn : σ.connected = true) (hoid : gen_object_id k = .ok oid)
    (hpres : (findEntry oid σ.store.entries).isSome = true)
    (hfull : σ.store.capacity < usedMem (plasmaDelete [oid] σ.store) + (psz k v).1 +
      (psz k v).2) :
    replace psz k v σ = (some .valueError, { σ with store := plasmaDelete [oid] σ.store }) ∧
    findEntry oid (replace psz k v σ).2.store.entries = none := by
  have hrep := replace_full psz σ k v oid hconn hoid hfull
  refine ⟨hrep, ?_⟩
  rw [hrep]
  exact findEntry_removeOids oid [oid] (by simp) σ.store.entries

/-- Witness for C10 on the concrete store: replacing `"a"` with an object
of serialized size 20 in the 10-byte store raises the store-full
`ValueError` and leaves `"a"` deleted. -/
theorem c10_witness :
    replace (fun (_ : PKey) (_ : Nat) => (20, 0)) (.str "a") 9 sigmaA =
      (some .valueError,
        { sigmaA with store := plasmaDelete [blake2b 20 (strEncode "a")] sigmaA.store }) ∧
    findEntry (blake2b 20 (strEncode "a"))
      (replace (fun (_ : PKey) (_ : Nat) => (20, 0)) (.str "a") 9 sigmaA).2.store.entries =
      none := by
  exact c10_replace_deletes_old_before_failed_put (fun _ _ => (20, 0)) sigmaA (.str "a") 9
    (blake2b 20 (strEncode "a")) rfl rfl (by decide) (by decide)

end PlasmaKV
